import Mathlib

/-!
Shallow embedding of `src/backend/reddit_mastermind.py` (Reddit Mastermind
multi-agent pipeline): data model, the five agent functions, the convergence
gate, the LangGraph-style workflow loop, and the `generate_reddit_calendar`
entry point.

Modelling conventions:
* Python floats carrying quality scores in [0,10] become `ℚ` (the only
  operations are comparisons against the literal threshold 7.5 = 15/2).
* `datetime` values become minutes on a linear time axis (`Int`):
  `datetime.strptime(f"{d} {t}", "%Y-%m-%d %H:%M")` is abstracted as the
  pre-parsed field `scheduled_datetime`, and `+ timedelta(minutes=m)` is
  `+ m`.  `strftime` of the same format is the identity on this axis.
* Every `chain.invoke(...)` call to the LLM is an oracle lookup: the oracle
  returns `some r` (a successfully parsed structured result) or `none`
  (the call raised — transport failure, JSON parse failure, or pydantic
  validation failure).  The critic/refine oracles are indexed by the
  `refinement_iteration` current at the call; the content oracles by the
  plan-item index (and commenter index), and `random.random() > 0.5` is an
  oracle coin indexed by (item, commenter).
* An uncaught Python exception escaping a stage is an `Except.error`;
  both the `KeyError` of a missing dict key and lookups into
  `personas_dict` surface as `PyErr.keyError` carrying no stage
  information, exactly as a raised Python exception does.
-/

/-- Model of the `Persona` pydantic class. -/
structure Persona where
  username : String
  name : String
  background : String
  style : String
  expertise : String
  quirks : List String
  posting_patterns : String
  deriving Repr, DecidableEq

/-- Model of the `RedditPost` pydantic class (timestamp on the minutes axis). -/
structure RedditPost where
  post_id : String
  subreddit : String
  title : String
  body : String
  author_username : String
  timestamp : Int
  keyword_ids : List String
  deriving Repr, DecidableEq

/-- Model of the `RedditComment` pydantic class (timestamp on the minutes axis). -/
structure RedditComment where
  comment_id : String
  post_id : String
  parent_comment_id : Option String
  comment_text : String
  username : String
  timestamp : Int
  delay_minutes : Int
  deriving Repr, DecidableEq

/-- Model of the `PostPlan` pydantic class; `scheduled_datetime` is the parse of
`f"{scheduled_date} {scheduled_time}"` onto the minutes axis. -/
structure PostPlan where
  subreddit : String
  target_keyword : String
  primary_persona : String
  commenting_personas : List String
  post_angle : String
  engagement_strategy : String
  scheduled_datetime : Int
  deriving Repr, DecidableEq

/-- Model of the `QualityScore` pydantic class; scores are rationals in place of floats. -/
structure QualityScore where
  naturalness : ℚ
  authenticity : ℚ
  engagement_potential : ℚ
  subtlety : ℚ
  overall_score : ℚ
  issues : List String
  suggestions : List String
  deriving Repr, DecidableEq

/-- Model of the `WeekPlan` pydantic class. -/
structure WeekPlan where
  week_number : Int
  start_date : String
  posts : List PostPlan
  quality_score : Option ℚ
  deriving Repr, DecidableEq

/-- Model of the `GeneratedContent` pydantic class. -/
structure GeneratedContent where
  posts : List RedditPost
  comments : List RedditComment
  quality_assessment : QualityScore
  deriving Repr, DecidableEq

/-- The workflow state dictionary threaded through the LangGraph nodes.
A `none` in an `Option` field models the dict key being absent (the graph
is `StateGraph(dict)` and the initial dict omits the phase keys). -/
structure RedditState where
  company_info : String
  personas : List Persona
  subreddits : List String
  target_queries : List String
  posts_per_week : Int
  week_number : Int
  strategic_plan : Option WeekPlan
  plan_critique : Option String
  generated_content : Option GeneratedContent
  content_critique : Option String
  quality_score : Option QualityScore
  refinement_iteration : Nat
  max_iterations : Nat
  final_content : Option GeneratedContent
  deriving Repr, DecidableEq

/-- Parsed structured result of one post-generation LLM call
(the `reasoning` field is produced but never read by the stage). -/
structure PostResult where
  title : String
  body : String
  deriving Repr, DecidableEq

/-- Parsed structured result of one comment-generation LLM call;
`delay_minutes` is `none` when the JSON lacked the key
(the code reads it with `.get('delay_minutes', 30)`). -/
structure CommentResult where
  comment_text : String
  delay_minutes : Option Int
  deriving Repr, DecidableEq

/-- Uncaught Python exceptions escaping a stage.  A missing dict key and a
missing `personas_dict` entry both raise `KeyError`; attribute access on
`None` raises `AttributeError`.  Neither carries the failing stage. -/
inductive PyErr where
  | keyError
  | attributeError
  | recursionError
  deriving Repr, DecidableEq

/-- The external text-generation capability and the RNG, as oracles.
Each `chain.invoke` either returns parsed structured data (`some`) or
raises (`none`). -/
structure Oracle where
  plannerLLM : Option WeekPlan
  criticLLM : Nat → Option QualityScore
  refineLLM : Nat → Option WeekPlan
  postLLM : Nat → Option PostResult
  commentLLM : Nat → Nat → Option CommentResult
  finalCriticLLM : Option QualityScore
  coin : Nat → Nat → Bool

/-- Model of `personas_dict = {p.username: p for p in state['personas']}` followed by
`personas_dict[u]`: a Python dict comprehension keeps the *last* entry for a
duplicated key, and lookup of an absent key raises `KeyError` (`none`). -/
def personas_dict (ps : List Persona) (u : String) : Option Persona :=
  ps.reverse.find? (fun p => p.username == u)

/-- Serialization stand-in for `json.dumps(result)` on a critic payload. -/
def dumpScore (q : QualityScore) : String :=
  toString q.naturalness ++ "|" ++ toString q.authenticity ++ "|" ++
    toString q.engagement_potential ++ "|" ++ toString q.subtlety ++ "|" ++
    toString q.overall_score ++ "|" ++ String.intercalate ";" q.issues ++ "|" ++
    String.intercalate ";" q.suggestions

/-- The all-zero placeholder `QualityScore` built by the content generator. -/
def zeroScore : QualityScore :=
  { naturalness := 0, authenticity := 0, engagement_potential := 0,
    subtlety := 0, overall_score := 0, issues := [], suggestions := [] }

/-- Model of `planner_agent`: one LLM call; on success stores the plan, on failure
returns `{**state}` unchanged.  The `raise` after that `return` is dead
code, so a planner failure never surfaces as an exception. -/
def planner_agent (o : Oracle) (s : RedditState) : RedditState :=
  match o.plannerLLM with
  | some wp => { s with strategic_plan := some wp }
  | none => s

/-- Model of `plan_critic_agent`: `state['strategic_plan'].model_dump_json()` runs
*before* the `try`, so a missing plan raises uncaught; the LLM call itself
is guarded, and on failure the previous state (previous quality score
included) is preserved. -/
def plan_critic_agent (o : Oracle) (s : RedditState) : Except PyErr RedditState :=
  match s.strategic_plan with
  | none => .error .keyError
  | some _ =>
    match o.criticLLM s.refinement_iteration with
    | some q => .ok { s with quality_score := some q, plan_critique := some (dumpScore q) }
    | none => .ok s

/-- Routing targets of the conditional edge out of `plan_critic`. -/
inductive Route where
  | generate_content
  | refine_plan
  deriving Repr, DecidableEq

/-- The literal convergence threshold `7.5` of `should_refine_plan`, as the
exact rational 15/2 — written in normalized numerator/denominator form so
that comparisons against it reduce inside the kernel; the theorem
`convergenceThreshold_eq` identifies it with `15/2`. -/
def convergenceThreshold : ℚ := ⟨15, 2, by decide, by decide⟩

/-- Model of `should_refine_plan`, the convergence gate:
`state['quality_score'].overall_score` is read with no guard, so an unset
score raises uncaught; otherwise proceed iff `overall_score >= 7.5` or the
iteration budget is exhausted. -/
def should_refine_plan (s : RedditState) : Except PyErr Route :=
  match s.quality_score with
  | none => .error .keyError
  | some q =>
    if q.overall_score ≥ convergenceThreshold then .ok .generate_content
    else if s.refinement_iteration ≥ s.max_iterations then .ok .generate_content
    else .ok .refine_plan

/-- Model of `refine_plan_agent`: the refine prompt is an f-string reading
`state['quality_score'].issues` and `state['strategic_plan'].model_dump_json()`
*before* the `try`, so either being unset raises uncaught.  Inside the
`try`, success replaces the plan and increments the counter; the `except`
branch keeps the plan but still increments the counter. -/
def refine_plan_agent (o : Oracle) (s : RedditState) : Except PyErr RedditState :=
  match s.quality_score with
  | none => .error .keyError
  | some _ =>
    match s.strategic_plan with
    | none => .error .keyError
    | some _ =>
      match o.refineLLM s.refinement_iteration with
      | some wp =>
        .ok { s with strategic_plan := some wp,
                     refinement_iteration := s.refinement_iteration + 1 }
      | none =>
        .ok { s with refinement_iteration := s.refinement_iteration + 1 }

/-- Post identifier `f"P{i+1}"` for plan-item index `i`. -/
def postId (i : Nat) : String := "P" ++ toString (i + 1)

/-- Comment identifier `f"C{len(comments)+1}"`. -/
def commentId (n : Nat) : String := "C" ++ toString (n + 1)

/-- The threading decision for commenter index `j` on `post`: only from the
second commenting persona on (`j > 0`), only when same-post comments exist,
and only when `random.random() > 0.5`; the parent is the most recent
existing comment on the same post. -/
def threadParent (o : Oracle) (i j : Nat) (post : RedditPost)
    (comments : List RedditComment) : Option RedditComment :=
  if j > 0 ∧ comments.length > 0 then
    let same := comments.filter (fun c => c.post_id == post.post_id)
    if same.length > 0 then
      if o.coin i j then same.getLast? else none
    else none
  else none

/-- The `RedditComment` object built for commenter index `j` on `post` from
a successful comment-generation result: timestamp is the *post* time plus
the returned delay (default 30), identifier is `f"C{len(comments)+1}"`. -/
def mkComment (o : Oracle) (i j : Nat) (post : RedditPost) (post_time : Int)
    (commenter : Persona) (res : CommentResult)
    (comments : List RedditComment) : RedditComment :=
  { comment_id := commentId comments.length,
    post_id := post.post_id,
    parent_comment_id := (threadParent o i j post comments).map (fun c => c.comment_id),
    comment_text := res.comment_text,
    username := commenter.username,
    timestamp := post_time + res.delay_minutes.getD 30,
    delay_minutes := res.delay_minutes.getD 30 }

/-- The inner comment loop of `content_generator_agent` for one post:
iterates `post_plan.commenting_personas` with index `j`, threading the
global `comments` list through.  A `KeyError` on `personas_dict` is *not*
caught by the per-comment `try`, so it escapes to the per-item handler with
the mutations made so far (`Except.error` carries the list as mutated).
A failed comment-generation call is caught and skipped (`continue`). -/
def gen_comments (o : Oracle) (d : String → Option Persona) (i : Nat)
    (post : RedditPost) (post_time : Int) :
    List String → Nat → List RedditComment →
    Except (List RedditComment) (List RedditComment)
  | [], _, comments => .ok comments
  | u :: rest, j, comments =>
    match d u with
    | none => .error comments
    | some commenter =>
      match o.commentLLM i j with
      | none => gen_comments o d i post post_time rest (j + 1) comments
      | some res =>
        gen_comments o d i post post_time rest (j + 1)
          (comments ++ [mkComment o i j post post_time commenter res comments])

/-- The `RedditPost` object built for plan-item index `i` from a successful
post-generation result: timestamp is exactly the item's scheduled
date/time, identifier is `f"P{i+1}"`. -/
def mkPost (i : Nat) (item : PostPlan) (primary : Persona)
    (pres : PostResult) : RedditPost :=
  { post_id := postId i,
    subreddit := item.subreddit,
    title := pres.title,
    body := pres.body,
    author_username := primary.username,
    timestamp := item.scheduled_datetime,
    keyword_ids := [item.target_keyword] }

/-- The outer loop of `content_generator_agent` over plan items.
`personas_dict[post_plan.primary_persona]` runs *before* the per-item
`try`, so an unknown primary persona raises `KeyError` out of the whole
stage.  A failed post-generation call is caught and the item skipped; a
`KeyError` escaping the comment loop is caught by the same per-item
handler (the already-appended post and comments survive, being mutations
of the shared lists). -/
def gen_items (o : Oracle) (d : String → Option Persona) :
    List PostPlan → Nat → List RedditPost → List RedditComment →
    Except PyErr (List RedditPost × List RedditComment)
  | [], _, posts, comments => .ok (posts, comments)
  | item :: rest, i, posts, comments =>
    match d item.primary_persona with
    | none => .error .keyError
    | some primary =>
      match o.postLLM i with
      | none => gen_items o d rest (i + 1) posts comments
      | some pres =>
        let post := mkPost i item primary pres
        match gen_comments o d i post item.scheduled_datetime
            item.commenting_personas 0 comments with
        | .ok comments2 => gen_items o d rest (i + 1) (posts ++ [post]) comments2
        | .error comments2 => gen_items o d rest (i + 1) (posts ++ [post]) comments2

/-- Model of `content_generator_agent`: `state['strategic_plan'].posts` is read
unguarded; the item loop runs over the plan, and the stage attaches the
all-zero placeholder `QualityScore` to the bundle. -/
def content_generator_agent (o : Oracle) (s : RedditState) :
    Except PyErr RedditState :=
  match s.strategic_plan with
  | none => .error .keyError
  | some plan =>
    match gen_items o (personas_dict s.personas) plan.posts 0 [] [] with
    | .error e => .error e
    | .ok (posts, comments) =>
      let gc : GeneratedContent :=
        { posts := posts, comments := comments, quality_assessment := zeroScore }
      .ok { s with generated_content := some gc }

/-- Model of `final_critic_agent`: `state['generated_content']` is read unguarded;
on LLM success the bundle's placeholder score is overwritten and stored as
`final_content`; on failure `final_content` is the bundle with its
placeholder score. -/
def final_critic_agent (o : Oracle) (s : RedditState) :
    Except PyErr RedditState :=
  match s.generated_content with
  | none => .error .keyError
  | some content =>
    match o.finalCriticLLM with
    | some q =>
      .ok { s with final_content := some ({ content with quality_assessment := q }),
                   content_critique := some (dumpScore q) }
    | none =>
      .ok { s with final_content := s.generated_content }

/-- The `plan_critic → should_refine_plan → (refine_plan → plan_critic)*`
loop of the compiled graph.  `fuel` bounds the recursion (LangGraph's own
recursion limit); the sufficiency lemma below shows the bound is never hit
with `max_iterations - refinement_iteration + 1` steps. -/
def critique_loop (o : Oracle) : Nat → RedditState → Except PyErr RedditState
  | 0, _ => .error .recursionError
  | fuel + 1, s =>
    match plan_critic_agent o s with
    | .error e => .error e
    | .ok s1 =>
      match should_refine_plan s1 with
      | .error e => .error e
      | .ok .generate_content => .ok s1
      | .ok .refine_plan =>
        match refine_plan_agent o s1 with
        | .error e => .error e
        | .ok s2 => critique_loop o fuel s2

/-- Model of `app.invoke(initial_state)`: planner, then the critique loop, then
content generation, then the final critic. -/
def workflow_invoke (o : Oracle) (fuel : Nat) (s : RedditState) :
    Except PyErr RedditState :=
  match critique_loop o fuel (planner_agent o s) with
  | .error e => .error e
  | .ok s2 =>
    match content_generator_agent o s2 with
    | .error e => .error e
    | .ok s3 => final_critic_agent o s3

/-- The initial state dict built by `generate_reddit_calendar`: the phase
keys are absent (`none`), `refinement_iteration` is 0 and `max_iterations`
is the hardcoded constant 2 — the caller supplies no iteration ceiling. -/
def initial_state (company_info : String) (personas : List Persona)
    (subreddits target_queries : List String)
    (posts_per_week week_number : Int) : RedditState :=
  { company_info := company_info, personas := personas,
    subreddits := subreddits, target_queries := target_queries,
    posts_per_week := posts_per_week, week_number := week_number,
    strategic_plan := none, plan_critique := none,
    generated_content := none, content_critique := none,
    quality_score := none, refinement_iteration := 0,
    max_iterations := 2, final_content := none }

/-- Model of `generate_reddit_calendar`, the sole entry point: builds the initial
state, invokes the workflow, and returns `final_state['final_content']`;
any exception from the workflow is re-raised unchanged (`except ... raise`). -/
def generate_reddit_calendar (o : Oracle) (company_info : String)
    (personas : List Persona) (subreddits target_queries : List String)
    (posts_per_week : Int) (week_number : Int) :
    Except PyErr GeneratedContent :=
  let s0 := initial_state company_info personas subreddits target_queries
    posts_per_week week_number
  match workflow_invoke o (s0.max_iterations + 1) s0 with
  | .error e => .error e
  | .ok sf =>
    match sf.final_content with
    | some c => .ok c
    | none => .error .keyError

/-! ## Characterization helpers

Recursive descriptions of what the content-generation loops produce,
used to state the fault-isolation and timestamp properties. -/

/-- The `post_id`s the item loop produces from global index `i` on: one per
plan item whose post-generation call succeeds. -/
def specPostIds (o : Oracle) : Nat → List PostPlan → List String
  | _, [] => []
  | i, _ :: rest =>
    if (o.postLLM i).isSome then postId i :: specPostIds o (i + 1) rest
    else specPostIds o (i + 1) rest

/-- The author usernames of the comments produced for plan item `i` from
commenter index `j` on: one per commenting persona whose comment-generation
call succeeds. -/
def specCommentUsers (o : Oracle) (i : Nat) : Nat → List String → List String
  | _, [] => []
  | j, u :: rest =>
    if (o.commentLLM i j).isSome then u :: specCommentUsers o i (j + 1) rest
    else specCommentUsers o i (j + 1) rest

/-- The per-post forest/threading invariant on a comment list in creation
order: a set `parent_comment_id` references a comment created strictly
earlier (a smaller index) with the same `post_id`. -/
def forest_ok (C : List RedditComment) : Prop :=
  ∀ (k : Nat) (h : k < C.length) (pc : String),
    (C.get ⟨k, h⟩).parent_comment_id = some pc →
    ∃ c2 ∈ C.take k, c2.comment_id = pc ∧ c2.post_id = (C.get ⟨k, h⟩).post_id

/-! ## Concrete fixtures

A small roster, plan and family of oracles used by the witness and
counterexample theorems. -/

def pRiley : Persona :=
  ⟨"riley", "Riley Hart", "ops lead", "direct", "operations", [], ""⟩

def pJordan : Persona :=
  ⟨"jordan", "Jordan Brooks", "consultant", "narrative", "strategy", [], ""⟩

def pEmily : Persona :=
  ⟨"emily", "Emily Chen", "student", "practical", "academic talks", [], ""⟩

def demoPersonas : List Persona := [pRiley, pJordan, pEmily]

def qHigh : QualityScore := ⟨8, 8, 8, 8, 8, [], []⟩

def qLow : QualityScore := ⟨5, 5, 5, 5, 5, ["too uniform"], ["vary engagement"]⟩

def itemOne : PostPlan :=
  ⟨"r/startups", "presentation tools", "riley", ["jordan", "emily"], "a1", "e1", 1000⟩

def itemTwo : PostPlan :=
  ⟨"r/consulting", "pitch deck help", "jordan", ["riley"], "a2", "e2", 3000⟩

def itemThree : PostPlan :=
  ⟨"r/productivity", "slide design tips", "emily", ["jordan"], "a3", "e3", 5000⟩

/-- A plan item whose primary persona is not in the roster. -/
def itemGhost : PostPlan :=
  ⟨"r/consulting", "pitch deck help", "ghost", ["riley"], "a2", "e2", 3000⟩

def demoPlan : WeekPlan := ⟨1, "2026-01-05", [itemOne, itemTwo, itemThree], none⟩

def ghostPlan : WeekPlan := ⟨1, "2026-01-05", [itemOne, itemGhost, itemThree], none⟩

/-- Baseline oracle: every call succeeds, the critic scores 8, the first
comment of each post gets delay 60, later ones delay 0, and the coin
threads exactly the second commenter of each post. -/
def oBase : Oracle :=
  { plannerLLM := some demoPlan,
    criticLLM := fun _ => some qHigh,
    refineLLM := fun _ => some demoPlan,
    postLLM := fun _ => some ⟨"demo title", "demo body"⟩,
    commentLLM := fun _ j =>
      if j = 0 then some ⟨"first comment", some 60⟩
      else some ⟨"threaded comment", some 0⟩,
    finalCriticLLM := some qHigh,
    coin := fun _ j => j == 1 }

/-- Like `oBase` but post generation fails exactly on the second plan item. -/
def oSkipSecond : Oracle :=
  { oBase with postLLM := fun i =>
      if i = 1 then none else some ⟨"demo title", "demo body"⟩ }

/-- Like `oBase` but the plan critic always scores 5 (below threshold). -/
def oLowScore : Oracle := { oBase with criticLLM := fun _ => some qLow }

/-- Like `oBase` but every plan-critic call raises. -/
def oCriticDown : Oracle := { oBase with criticLLM := fun _ => none }

/-- Like `oBase` but the planner call raises. -/
def oPlannerDown : Oracle := { oBase with plannerLLM := none }

/-- Like `oBase` but the plan names the unknown primary persona. -/
def oGhost : Oracle := { oBase with plannerLLM := some ghostPlan }

/-- Like `oBase` but the final critic call raises. -/
def oFinalDown : Oracle := { oBase with finalCriticLLM := none }

/-- A mid-run state: plan present, quality score 8 already recorded. -/
def sDemo : RedditState :=
  { initial_state "ci" demoPersonas ["r/startups"] ["presentation tools"] 3 1 with
    strategic_plan := some demoPlan, quality_score := some qHigh }

/-- A mid-run state with the low score recorded. -/
def sDemoLow : RedditState :=
  { initial_state "ci" demoPersonas ["r/startups"] ["presentation tools"] 3 1 with
    strategic_plan := some demoPlan, quality_score := some qLow }

/-! ## Stage-level field lemmas -/

theorem convergenceThreshold_eq : convergenceThreshold = 15/2 := by
  rw [convergenceThreshold, Rat.mk'_eq_divInt]
  norm_num [Rat.divInt_eq_div]

theorem planner_agent_counters (o : Oracle) (s : RedditState) :
    (planner_agent o s).refinement_iteration = s.refinement_iteration ∧
    (planner_agent o s).max_iterations = s.max_iterations ∧
    (planner_agent o s).quality_score = s.quality_score := by
  unfold planner_agent
  cases o.plannerLLM <;> simp

theorem plan_critic_ok_fields (o : Oracle) (s s1 : RedditState)
    (h : plan_critic_agent o s = .ok s1) :
    s1.refinement_iteration = s.refinement_iteration ∧
    s1.max_iterations = s.max_iterations ∧
    s1.strategic_plan = s.strategic_plan ∧
    s.strategic_plan ≠ none := by
  unfold plan_critic_agent at h
  split at h
  · exact absurd h (by simp)
  next p hp =>
    split at h
    next q hq =>
      simp only [Except.ok.injEq] at h
      subst h
      simp [hp]
    next hq =>
      simp only [Except.ok.injEq] at h
      subst h
      simp [hp]

theorem gate_refine_fields (s : RedditState)
    (h : should_refine_plan s = .ok .refine_plan) :
    s.refinement_iteration < s.max_iterations ∧ s.quality_score ≠ none := by
  unfold should_refine_plan at h
  split at h
  · exact absurd h (by simp)
  next q hq =>
    split at h
    · exact absurd h (by simp)
    · split at h
      · exact absurd h (by simp)
      next hit => exact ⟨by omega, by simp [hq]⟩

theorem refine_ok_of_some (o : Oracle) (s : RedditState)
    (hq : s.quality_score ≠ none) (hp : s.strategic_plan ≠ none) :
    ∃ s2, refine_plan_agent o s = .ok s2 ∧
      s2.refinement_iteration = s.refinement_iteration + 1 ∧
      s2.max_iterations = s.max_iterations ∧
      s2.quality_score = s.quality_score ∧
      s2.strategic_plan ≠ none ∧
      (o.refineLLM s.refinement_iteration = none →
        s2.strategic_plan = s.strategic_plan) := by
  unfold refine_plan_agent
  cases hq2 : s.quality_score with
  | none => exact absurd hq2 hq
  | some q =>
    cases hp2 : s.strategic_plan with
    | none => exact absurd hp2 hp
    | some p =>
      cases hr : o.refineLLM s.refinement_iteration with
      | none => exact ⟨_, rfl, by simp [hp2]⟩
      | some wp => exact ⟨_, rfl, by simp [hp2]⟩

/-! ## Critique-loop lemmas -/

theorem critique_loop_mono (o : Oracle) :
    ∀ (fuel : Nat) (s s2 : RedditState), critique_loop o fuel s = .ok s2 →
      s.refinement_iteration ≤ s2.refinement_iteration ∧
      s2.max_iterations = s.max_iterations := by
  intro fuel
  induction fuel with
  | zero => intro s s2 h; exact absurd h (by simp [critique_loop])
  | succ n ih =>
    intro s s2 h
    unfold critique_loop at h
    split at h
    · exact absurd h (by simp)
    next s1 hc =>
      obtain ⟨hit, hmax, hplan, hplanne⟩ := plan_critic_ok_fields o s s1 hc
      split at h
      · exact absurd h (by simp)
      · simp only [Except.ok.injEq] at h
        subst h
        omega
      next hg =>
        obtain ⟨hlt, hqne⟩ := gate_refine_fields s1 hg
        obtain ⟨s3, hr, hit3, hmax3, _, hpne3, _⟩ :=
          refine_ok_of_some o s1 hqne (hplan ▸ hplanne)
        rw [hr] at h
        obtain ⟨h1, h2⟩ := ih s3 s2 h
        omega

theorem critique_loop_bounded (o : Oracle) :
    ∀ (fuel : Nat) (s s2 : RedditState), critique_loop o fuel s = .ok s2 →
      s.refinement_iteration ≤ s.max_iterations →
      s2.refinement_iteration ≤ s.max_iterations := by
  intro fuel
  induction fuel with
  | zero => intro s s2 h; exact absurd h (by simp [critique_loop])
  | succ n ih =>
    intro s s2 h hle
    unfold critique_loop at h
    split at h
    · exact absurd h (by simp)
    next s1 hc =>
      obtain ⟨hit, hmax, hplan, hplanne⟩ := plan_critic_ok_fields o s s1 hc
      split at h
      · exact absurd h (by simp)
      · simp only [Except.ok.injEq] at h
        subst h
        omega
      next hg =>
        obtain ⟨hlt, hqne⟩ := gate_refine_fields s1 hg
        obtain ⟨s3, hr, hit3, hmax3, _, hpne3, _⟩ :=
          refine_ok_of_some o s1 hqne (hplan ▸ hplanne)
        rw [hr] at h
        have h3 := ih s3 s2 h (by omega)
        omega

theorem critique_loop_fuel_sufficient (o : Oracle) :
    ∀ (fuel : Nat) (s : RedditState),
      s.max_iterations - s.refinement_iteration < fuel →
      critique_loop o fuel s ≠ .error .recursionError := by
  intro fuel
  induction fuel with
  | zero => intro s h; omega
  | succ n ih =>
    intro s hfuel
    unfold critique_loop
    split
    next e hc =>
      intro hcon
      simp only [Except.error.injEq] at hcon
      subst hcon
      unfold plan_critic_agent at hc
      split at hc
      · simp at hc
      · split at hc <;> simp at hc
    next s1 hc =>
      obtain ⟨hit, hmax, hplan, hplanne⟩ := plan_critic_ok_fields o s s1 hc
      split
      next e hg =>
        intro hcon
        simp only [Except.error.injEq] at hcon
        subst hcon
        unfold should_refine_plan at hg
        split at hg
        · simp at hg
        · split at hg
          · simp at hg
          · split at hg <;> simp at hg
      · simp
      next hg =>
        obtain ⟨hlt, hqne⟩ := gate_refine_fields s1 hg
        obtain ⟨s3, hr, hit3, hmax3, _, hpne3, _⟩ :=
          refine_ok_of_some o s1 hqne (hplan ▸ hplanne)
        rw [hr]
        exact ih s3 (by omega)

theorem critique_loop_step_proceed (o : Oracle) (n : Nat) (s s1 : RedditState)
    (hc : plan_critic_agent o s = .ok s1)
    (hg : should_refine_plan s1 = .ok .generate_content) :
    critique_loop o (n + 1) s = .ok s1 := by
  simp only [critique_loop, hc, hg]

theorem critique_loop_step_refine (o : Oracle) (n : Nat) (s s1 s3 : RedditState)
    (hc : plan_critic_agent o s = .ok s1)
    (hg : should_refine_plan s1 = .ok .refine_plan)
    (hr : refine_plan_agent o s1 = .ok s3) :
    critique_loop o (n + 1) s = critique_loop o n s3 := by
  simp only [critique_loop, hc, hg, hr]

theorem content_ok_fields (o : Oracle) (s s2 : RedditState)
    (h : content_generator_agent o s = .ok s2) :
    s2.refinement_iteration = s.refinement_iteration ∧
    s2.max_iterations = s.max_iterations ∧
    (∃ P C, s2.generated_content = some ⟨P, C, zeroScore⟩) ∧
    s.strategic_plan ≠ none := by
  unfold content_generator_agent at h
  split at h
  · simp at h
  next plan hp =>
    split at h
    · simp at h
    next P C hgi =>
      simp only [Except.ok.injEq] at h
      subst h
      exact ⟨rfl, rfl, ⟨P, C, rfl⟩, by simp [hp]⟩

theorem final_critic_ok_fields (o : Oracle) (s s2 : RedditState)
    (h : final_critic_agent o s = .ok s2) :
    s2.refinement_iteration = s.refinement_iteration ∧
    s2.generated_content = s.generated_content := by
  unfold final_critic_agent at h
  split at h
  · simp at h
  next content hgc =>
    split at h <;> (simp only [Except.ok.injEq] at h; subst h; exact ⟨rfl, rfl⟩)

/-! ## Claim theorems: convergence gate and iteration counter -/

/-- C1: the convergence gate, on a state whose quality score is set, routes
to content generation iff `overall_score ≥ 7.5` or the iteration budget is
exhausted, and routes to refinement iff neither holds; moreover, when the
plan critic's score at the loop's entry has `overall_score ≥ 7.5`, the
critique loop returns at once with the refinement counter untouched and the
plan unreplaced — refinement is never invoked. -/
theorem C1_convergence_gate :
    (∀ (s : RedditState) (q : QualityScore), s.quality_score = some q →
       ((should_refine_plan s = .ok .generate_content ↔
           (15/2 ≤ q.overall_score ∨ s.max_iterations ≤ s.refinement_iteration)) ∧
        (should_refine_plan s = .ok .refine_plan ↔
           (q.overall_score < 15/2 ∧ s.refinement_iteration < s.max_iterations)))) ∧
    (∀ (o : Oracle) (n : Nat) (s : RedditState) (q : QualityScore) (p : WeekPlan),
       s.strategic_plan = some p →
       o.criticLLM s.refinement_iteration = some q →
       15/2 ≤ q.overall_score →
       ∃ s2, critique_loop o (n + 1) s = .ok s2 ∧
         s2.refinement_iteration = s.refinement_iteration ∧
         s2.strategic_plan = some p) := by
  constructor
  · intro s q hq
    simp only [should_refine_plan, hq]
    rw [convergenceThreshold_eq]
    by_cases h1 : q.overall_score ≥ 15/2
    · rw [if_pos h1]
      constructor
      · simp [ge_iff_le.mp h1]
      · simp [not_lt.mpr h1]
    · rw [if_neg h1]
      by_cases h2 : s.refinement_iteration ≥ s.max_iterations
      · rw [if_pos h2]
        constructor
        · simp [h2]
        · constructor
          · intro hcon; simp at hcon
          · intro ⟨_, hcon⟩; omega
      · rw [if_neg h2]
        constructor
        · constructor
          · intro hcon; simp at hcon
          · intro hcon
            rcases hcon with h | h
            · exact absurd h h1
            · exact absurd h h2
        · simp [lt_of_not_ge h1, lt_of_not_ge h2]
  · intro o n s q p hp hcrit hhigh
    have hc : plan_critic_agent o s =
        .ok { s with quality_score := some q, plan_critique := some (dumpScore q) } := by
      unfold plan_critic_agent
      rw [hp, hcrit]
    have hg : should_refine_plan
        { s with quality_score := some q, plan_critique := some (dumpScore q) } =
        .ok .generate_content := by
      simp only [should_refine_plan]
      rw [convergenceThreshold_eq, if_pos hhigh]
    exact ⟨_, critique_loop_step_proceed o n s _ hc hg, rfl, hp⟩

/-- C2: the refinement stage increments the iteration counter by exactly one
on every invocation, generation success or not (on failure the plan is left
unchanged); every other stage preserves the counter, so over a run the
counter is monotonically non-decreasing; through the critique loop it never
exceeds `max_iterations`; and with fuel exceeding the remaining budget the
loop never exhausts its recursion bound — it terminates. -/
theorem C2_iteration_counter :
    (∀ (o : Oracle) (s : RedditState),
        s.quality_score ≠ none → s.strategic_plan ≠ none →
        ∃ s2, refine_plan_agent o s = .ok s2 ∧
          s2.refinement_iteration = s.refinement_iteration + 1 ∧
          (o.refineLLM s.refinement_iteration = none →
            s2.strategic_plan = s.strategic_plan)) ∧
    (∀ (o : Oracle) (s : RedditState),
        (planner_agent o s).refinement_iteration = s.refinement_iteration ∧
        (∀ s2, plan_critic_agent o s = .ok s2 →
           s2.refinement_iteration = s.refinement_iteration) ∧
        (∀ s2, content_generator_agent o s = .ok s2 →
           s2.refinement_iteration = s.refinement_iteration) ∧
        (∀ s2, final_critic_agent o s = .ok s2 →
           s2.refinement_iteration = s.refinement_iteration)) ∧
    (∀ (o : Oracle) (fuel : Nat) (s s2 : RedditState),
        critique_loop o fuel s = .ok s2 →
        s.refinement_iteration ≤ s2.refinement_iteration ∧
        (s.refinement_iteration ≤ s.max_iterations →
          s2.refinement_iteration ≤ s.max_iterations)) ∧
    (∀ (o : Oracle) (fuel : Nat) (s : RedditState),
        s.max_iterations - s.refinement_iteration < fuel →
        critique_loop o fuel s ≠ .error .recursionError) := by
  refine ⟨?_, ?_, ?_, ?_⟩
  · intro o s hq hp
    obtain ⟨s2, hr, h1, h2, h3, h4, h5⟩ := refine_ok_of_some o s hq hp
    exact ⟨s2, hr, h1, h5⟩
  · intro o s
    refine ⟨(planner_agent_counters o s).1, ?_, ?_, ?_⟩
    · intro s2 h; exact (plan_critic_ok_fields o s s2 h).1
    · intro s2 h; exact (content_ok_fields o s s2 h).1
    · intro s2 h; exact (final_critic_ok_fields o s s2 h).1
  · intro o fuel s s2 h
    exact ⟨(critique_loop_mono o fuel s s2 h).1,
           fun hle => critique_loop_bounded o fuel s s2 h hle⟩
  · intro o fuel s h
    exact critique_loop_fuel_sufficient o fuel s h

/-! ## Error-path lemmas and claims -/

theorem generate_reddit_calendar_eq (o : Oracle) (ci : String) (ps : List Persona)
    (subs qs : List String) (ppw wn : Int) :
    generate_reddit_calendar o ci ps subs qs ppw wn =
      match workflow_invoke o ((initial_state ci ps subs qs ppw wn).max_iterations + 1)
          (initial_state ci ps subs qs ppw wn) with
      | .error e => .error e
      | .ok sf =>
        match sf.final_content with
        | some c => .ok c
        | none => .error .keyError := rfl

theorem critic_fail_gate_error (o : Oracle) (s : RedditState) (p : WeekPlan)
    (hs : s.strategic_plan = some p) (hq : s.quality_score = none)
    (hcrit : o.criticLLM s.refinement_iteration = none) :
    plan_critic_agent o s = .ok s ∧ should_refine_plan s = .error .keyError ∧
    ∀ n : Nat, critique_loop o (n + 1) s = .error .keyError := by
  have hc : plan_critic_agent o s = .ok s := by
    unfold plan_critic_agent
    rw [hs, hcrit]
  have hg : should_refine_plan s = .error .keyError := by
    simp only [should_refine_plan, hq]
  exact ⟨hc, hg, fun n => by simp only [critique_loop, hc, hg]⟩

/-- C5 (code bug): when the planner generation call fails, the stage leaves
the run state unmodified — but the `raise` in its handler is dead code
after `return {**state}`, so no error is surfaced by the planner: the
workflow continues into the plan critic, which then raises an unrelated
`KeyError` on the still-missing plan.  The claimed intent (planner surfaces
its own failure) is not what the code does. -/
theorem C5_planner_failure_absorbed (o : Oracle) (s : RedditState)
    (h : o.plannerLLM = none) :
    planner_agent o s = s ∧
    (s.strategic_plan = none →
      plan_critic_agent o (planner_agent o s) = .error .keyError ∧
      ∀ n : Nat, workflow_invoke o (n + 1) s = .error .keyError) := by
  have hp : planner_agent o s = s := by unfold planner_agent; rw [h]
  refine ⟨hp, fun hnone => ?_⟩
  have hc : plan_critic_agent o s = .error .keyError := by
    unfold plan_critic_agent
    rw [hnone]
  constructor
  · rw [hp]; exact hc
  intro n
  unfold workflow_invoke
  rw [hp]
  have hloop : critique_loop o (n + 1) s = .error .keyError := by
    simp only [critique_loop, hc]
  rw [hloop]

/-- C5 witness: with the planner oracle down, the planner node returns the
initial state unchanged and the run then dies inside the critic. -/
theorem C5_witness :
    planner_agent oPlannerDown
        (initial_state "ci" demoPersonas ["r/startups"] ["kw"] 3 1) =
      initial_state "ci" demoPersonas ["r/startups"] ["kw"] 3 1 ∧
    workflow_invoke oPlannerDown 3
        (initial_state "ci" demoPersonas ["r/startups"] ["kw"] 3 1) =
      .error .keyError := by
  have h := C5_planner_failure_absorbed oPlannerDown
    (initial_state "ci" demoPersonas ["r/startups"] ["kw"] 3 1) rfl
  exact ⟨h.1, (h.2 rfl).2 2⟩

/-- C9: `should_refine_plan` reads the quality score with no `None` guard —
if the plan critic fails on its very first invocation, the state it hands
back still has no quality score, the gate's unguarded access raises an
uncaught `KeyError`, and the entire run aborts; the critic failure is not
absorbed as "no improvement". -/
theorem C9_gate_unguarded (o : Oracle) (ci : String) (ps : List Persona)
    (subs qs : List String) (ppw wn : Int) (p : WeekPlan)
    (hplanner : o.plannerLLM = some p) (hcritic : o.criticLLM 0 = none) :
    (∀ s : RedditState, s.strategic_plan = some p → s.quality_score = none →
       s.refinement_iteration = 0 →
       plan_critic_agent o s = .ok s ∧ should_refine_plan s = .error .keyError) ∧
    generate_reddit_calendar o ci ps subs qs ppw wn = .error .keyError := by
  constructor
  · intro s hs hq hi
    have h := critic_fail_gate_error o s p hs hq (by rw [hi]; exact hcritic)
    exact ⟨h.1, h.2.1⟩
  · have h1 : planner_agent o (initial_state ci ps subs qs ppw wn) =
        { initial_state ci ps subs qs ppw wn with strategic_plan := some p } := by
      unfold planner_agent
      rw [hplanner]
    obtain ⟨hc, hg, hloop⟩ := critic_fail_gate_error o
      { initial_state ci ps subs qs ppw wn with strategic_plan := some p } p
      rfl rfl hcritic
    rw [generate_reddit_calendar_eq]
    have hw : workflow_invoke o
        ((initial_state ci ps subs qs ppw wn).max_iterations + 1)
        (initial_state ci ps subs qs ppw wn) = .error .keyError := by
      unfold workflow_invoke
      rw [h1, hloop ((initial_state ci ps subs qs ppw wn).max_iterations)]
    rw [hw]

/-- C9 witness: concrete run in which the critic oracle is down from the
start: the whole pipeline aborts with the gate's `KeyError`. -/
theorem C9_witness :
    generate_reddit_calendar oCriticDown "ci" demoPersonas ["r/startups"]
      ["presentation tools"] 3 1 = .error .keyError :=
  (C9_gate_unguarded oCriticDown "ci" demoPersonas ["r/startups"]
    ["presentation tools"] 3 1 demoPlan rfl rfl).2

/-- C8: the content-generation stage attaches the all-zero placeholder
score to its bundle; if the final critic then fails, the run still returns
that bundle (placeholder score intact) instead of failing, and on success
the placeholder is overwritten with the critic's score. -/
theorem C8_placeholder_score (o : Oracle) (s s1 : RedditState)
    (h : content_generator_agent o s = .ok s1) :
    (∃ gc, s1.generated_content = some gc ∧ gc.quality_assessment = zeroScore) ∧
    (∀ gc, s1.generated_content = some gc →
       (o.finalCriticLLM = none →
          ∃ s2, final_critic_agent o s1 = .ok s2 ∧ s2.final_content = some gc) ∧
       (∀ q, o.finalCriticLLM = some q →
          ∃ s2, final_critic_agent o s1 = .ok s2 ∧
            s2.final_content = some { gc with quality_assessment := q })) := by
  obtain ⟨_, _, ⟨P, C, hgc⟩, _⟩ := content_ok_fields o s s1 h
  constructor
  · exact ⟨_, hgc, rfl⟩
  · intro gc hgc2
    constructor
    · intro hnone
      have heq : final_critic_agent o s1 =
          .ok { s1 with final_content := s1.generated_content } := by
        unfold final_critic_agent
        rw [hgc2, hnone]
      exact ⟨_, heq, by simp [hgc2]⟩
    · intro q hq
      have heq : final_critic_agent o s1 =
          .ok { s1 with
                final_content := some { gc with quality_assessment := q },
                content_critique := some (dumpScore q) } := by
        unfold final_critic_agent
        rw [hgc2, hq]
      exact ⟨_, heq, by simp⟩

/-- C8 witness: with the final critic down, the concrete run returns the
bundle carrying the all-zero placeholder score. -/
theorem C8_witness :
    ∃ s1, content_generator_agent oFinalDown sDemo = .ok s1 ∧
      (∃ gc, s1.generated_content = some gc ∧ gc.quality_assessment = zeroScore) ∧
      (∃ gc s2, s1.generated_content = some gc ∧
        final_critic_agent oFinalDown s1 = .ok s2 ∧ s2.final_content = some gc) := by
  obtain ⟨s1, hres⟩ : ∃ s1, content_generator_agent oFinalDown sDemo = .ok s1 := ⟨_, rfl⟩
  have h := C8_placeholder_score oFinalDown sDemo s1 hres
  obtain ⟨gc, hgc, hzero⟩ := h.1
  obtain ⟨s2, hs2, hf⟩ := (h.2 gc hgc).1 rfl
  exact ⟨s1, hres, ⟨gc, hgc, hzero⟩, gc, s2, hgc, hs2, hf⟩

/-- C6 counterexample: two runs that fail in different stages — the plan
critic's oracle down versus an unknown primary persona inside the content
stage — surface the *same* raw error value, so the caller cannot tell which
stage failed; and the entry point's initial state pins `max_iterations` to
the constant 2 (there is no caller-supplied ceiling argument). -/
theorem C6_counterexample :
    (initial_state "ci" demoPersonas ["r/startups"] ["presentation tools"] 3
        1).max_iterations = 2 ∧
    critique_loop oCriticDown 3
        (planner_agent oCriticDown
          (initial_state "ci" demoPersonas ["r/startups"] ["presentation tools"] 3 1)) =
      .error .keyError ∧
    (critique_loop oGhost 3
        (planner_agent oGhost
          (initial_state "ci" demoPersonas ["r/startups"] ["presentation tools"] 3
            1))).isOk = true ∧
    (critique_loop oGhost 3
        (planner_agent oGhost
          (initial_state "ci" demoPersonas ["r/startups"] ["presentation tools"] 3
            1))).bind (content_generator_agent oGhost) = .error .keyError ∧
    generate_reddit_calendar oCriticDown "ci" demoPersonas ["r/startups"]
        ["presentation tools"] 3 1 =
      generate_reddit_calendar oGhost "ci" demoPersonas ["r/startups"]
        ["presentation tools"] 3 1 :=
  ⟨rfl, rfl, rfl, rfl, rfl⟩

/-- C6 (amended): the sole entry point takes company info, personas,
communities, target keywords, posts_per_week and week_number; the iteration
ceiling is not caller-supplied but fixed internally at 2; the result is
either the terminal stage's complete `final_content` bundle or the raw
propagated exception (which carries no stage identity) — never a partial
result. -/
theorem C6_entry_point (o : Oracle) (ci : String) (ps : List Persona)
    (subs qs : List String) (ppw wn : Int) :
    (initial_state ci ps subs qs ppw wn).max_iterations = 2 ∧
    (initial_state ci ps subs qs ppw wn).refinement_iteration = 0 ∧
    (∀ c, generate_reddit_calendar o ci ps subs qs ppw wn = .ok c →
       ∃ sf, workflow_invoke o 3 (initial_state ci ps subs qs ppw wn) = .ok sf ∧
         sf.final_content = some c) := by
  refine ⟨rfl, rfl, ?_⟩
  intro c h
  rw [generate_reddit_calendar_eq] at h
  cases hw : workflow_invoke o
      ((initial_state ci ps subs qs ppw wn).max_iterations + 1)
      (initial_state ci ps subs qs ppw wn) with
  | error e =>
    simp only [hw] at h
    exact absurd h (by simp)
  | ok sf =>
    simp only [hw] at h
    cases hf : sf.final_content with
    | none =>
      simp only [hf] at h
      exact absurd h (by simp)
    | some c2 =>
      simp only [hf, Except.ok.injEq] at h
      subst h
      exact ⟨sf, hw, hf⟩

/-- C6 witness: a fully successful concrete run returns exactly the
terminal stage's final content. -/
theorem C6_witness :
    (initial_state "ci" demoPersonas ["r/startups"] ["presentation tools"] 3
        1).max_iterations = 2 ∧
    ∃ c sf,
      generate_reddit_calendar oBase "ci" demoPersonas ["r/startups"]
          ["presentation tools"] 3 1 = .ok c ∧
      workflow_invoke oBase 3
          (initial_state "ci" demoPersonas ["r/startups"] ["presentation tools"] 3 1) =
        .ok sf ∧
      sf.final_content = some c := by
  obtain ⟨c, hc⟩ : ∃ c, generate_reddit_calendar oBase "ci" demoPersonas
      ["r/startups"] ["presentation tools"] 3 1 = .ok c := ⟨_, rfl⟩
  have h := C6_entry_point oBase "ci" demoPersonas ["r/startups"]
    ["presentation tools"] 3 1
  obtain ⟨sf, hw, hf⟩ := h.2.2 c hc
  exact ⟨h.1, c, sf, hc, hw, hf⟩

/-- C1 witness: at the concrete demo states the gate proceeds on a score of
8 and refines on a score of 5, and with a first critic score of 8 the loop
returns with the counter untouched. -/
theorem C1_witness :
    sDemo.quality_score = some qHigh ∧
    should_refine_plan sDemo = .ok .generate_content ∧
    sDemoLow.quality_score = some qLow ∧
    should_refine_plan sDemoLow = .ok .refine_plan ∧
    ∃ s2, critique_loop oBase 1 sDemo = .ok s2 ∧
      s2.refinement_iteration = sDemo.refinement_iteration := by
  have h := C1_convergence_gate
  refine ⟨rfl, ?_, rfl, ?_, ?_⟩
  · exact (h.1 sDemo qHigh rfl).1.mpr
      (Or.inl (by rw [← convergenceThreshold_eq]; decide))
  · exact (h.1 sDemoLow qLow rfl).2.mpr
      ⟨by rw [← convergenceThreshold_eq]; decide, by decide⟩
  · obtain ⟨s2, h1, h2, _⟩ := h.2 oBase 0 sDemo qHigh demoPlan rfl rfl
      (by rw [← convergenceThreshold_eq]; decide)
    exact ⟨s2, h1, h2⟩

/-- C2 witness: at the concrete low-score state the refine node increments
the counter to 1, and the full loop under a stubborn score of 5 stays
within the ceiling of 2 and terminates. -/
theorem C2_witness :
    (∃ s2, refine_plan_agent oBase sDemoLow = .ok s2 ∧
       s2.refinement_iteration = sDemoLow.refinement_iteration + 1) ∧
    (∃ s2, critique_loop oLowScore 3 sDemoLow = .ok s2 ∧
       sDemoLow.refinement_iteration ≤ s2.refinement_iteration ∧
       s2.refinement_iteration ≤ sDemoLow.max_iterations) ∧
    critique_loop oLowScore 3 sDemoLow ≠ .error .recursionError := by
  have h := C2_iteration_counter
  refine ⟨?_, ?_, ?_⟩
  · obtain ⟨s2, h1, h2, _⟩ := h.1 oBase sDemoLow (by decide) (by decide)
    exact ⟨s2, h1, h2⟩
  · obtain ⟨s2, hs2⟩ : ∃ s2, critique_loop oLowScore 3 sDemoLow = .ok s2 := ⟨_, rfl⟩
    have hm := h.2.2.1 oLowScore 3 sDemoLow s2 hs2
    exact ⟨s2, hs2, hm.1, hm.2 (by decide)⟩
  · exact h.2.2.2 oLowScore 3 sDemoLow (by decide)

/-! ## Content-generation loop characterization -/

theorem getLast?_mem_of_eq {α : Type} {l : List α} {a : α}
    (h : l.getLast? = some a) : a ∈ l := by
  obtain ⟨hne, heq⟩ := List.mem_getLast?_eq_getLast (by rw [Option.mem_def]; exact h)
  rw [heq]
  exact List.getLast_mem hne

theorem personas_dict_username (ps : List Persona) (u : String) (p : Persona)
    (h : personas_dict ps u = some p) : p.username = u := by
  have := List.find?_some h
  simpa using this

theorem threadParent_mem (o : Oracle) (i j : Nat) (post : RedditPost)
    (comments : List RedditComment) (c : RedditComment)
    (h : threadParent o i j post comments = some c) :
    c ∈ comments ∧ c.post_id = post.post_id := by
  simp only [threadParent] at h
  split at h
  · split at h
    · split at h
      · have hmem := getLast?_mem_of_eq h
        have hf := List.mem_filter.mp hmem
        exact ⟨hf.1, by simpa using hf.2⟩
      · exact absurd h (by simp)
    · exact absurd h (by simp)
  · exact absurd h (by simp)

theorem gen_comments_ok (o : Oracle) (d : String → Option Persona)
    (hd : ∀ u p, d u = some p → p.username = u) (i : Nat)
    (post : RedditPost) (pt : Int) :
    ∀ (cps : List String) (j : Nat) (comments : List RedditComment),
      (∀ u ∈ cps, (d u).isSome) →
      ∃ new, gen_comments o d i post pt cps j comments = .ok (comments ++ new) ∧
        (∀ c ∈ new, c.post_id = post.post_id ∧
           c.timestamp = pt + c.delay_minutes ∧
           ∃ res : CommentResult, (∃ j2, o.commentLLM i j2 = some res) ∧
             c.delay_minutes = res.delay_minutes.getD 30) ∧
        new.map (fun c => c.username) = specCommentUsers o i j cps := by
  intro cps
  induction cps with
  | nil =>
    intro j comments _
    refine ⟨[], ?_, ?_, ?_⟩
    · simp [gen_comments]
    · intro c hc; simp at hc
    · simp [specCommentUsers]
  | cons u rest ih =>
    intro j comments hres
    obtain ⟨p, hp⟩ := Option.isSome_iff_exists.mp (hres u (by simp))
    have hrest : ∀ v ∈ rest, (d v).isSome := fun v hv => hres v (by simp [hv])
    cases hcl : o.commentLLM i j with
    | none =>
      obtain ⟨new, h1, h2, h3⟩ := ih (j + 1) comments hrest
      refine ⟨new, ?_, h2, ?_⟩
      · simp only [gen_comments, hp, hcl]
        exact h1
      · rw [h3]
        simp [specCommentUsers, hcl]
    | some res =>
      obtain ⟨new, h1, h2, h3⟩ := ih (j + 1)
        (comments ++ [mkComment o i j post pt p res comments]) hrest
      refine ⟨mkComment o i j post pt p res comments :: new, ?_, ?_, ?_⟩
      · simp only [gen_comments, hp, hcl]
        rw [h1]
        simp
      · intro c hc
        rcases List.mem_cons.mp hc with hc0 | hcn
        · subst hc0
          exact ⟨rfl, rfl, res, ⟨j, hcl⟩, rfl⟩
        · exact h2 c hcn
      · simp only [List.map_cons, h3]
        have hu : (mkComment o i j post pt p res comments).username = u := hd u p hp
        rw [hu]
        simp [specCommentUsers, hcl]

theorem gen_items_ok (o : Oracle) (d : String → Option Persona)
    (hd : ∀ u p, d u = some p → p.username = u) :
    ∀ (items : List PostPlan) (i0 : Nat) (posts : List RedditPost)
      (comments : List RedditComment),
      (∀ it ∈ items, (d it.primary_persona).isSome ∧
         ∀ u ∈ it.commenting_personas, (d u).isSome) →
      ∃ P C, gen_items o d items i0 posts comments = .ok (posts ++ P, comments ++ C) ∧
        P.map (fun q => q.post_id) = specPostIds o i0 items ∧
        (∀ q ∈ P, ∃ k, ∃ hk : k < items.length,
           (o.postLLM (i0 + k)).isSome ∧ q.post_id = postId (i0 + k) ∧
           q.timestamp = (items.get ⟨k, hk⟩).scheduled_datetime) ∧
        (∀ c ∈ C, ∃ q ∈ P, c.post_id = q.post_id ∧
           c.timestamp = q.timestamp + c.delay_minutes ∧
           ∃ res : CommentResult, (∃ i2 j2, o.commentLLM i2 j2 = some res) ∧
             c.delay_minutes = res.delay_minutes.getD 30) ∧
        (∃ blocks : List (List RedditComment), C = blocks.flatten ∧
           blocks.length = items.length ∧
           ∀ (k : Nat) (hk : k < items.length) (hb : k < blocks.length),
             ((o.postLLM (i0 + k)).isSome →
                (blocks.get ⟨k, hb⟩).map (fun c => c.username) =
                  specCommentUsers o (i0 + k) 0
                    (items.get ⟨k, hk⟩).commenting_personas) ∧
             (o.postLLM (i0 + k) = none → blocks.get ⟨k, hb⟩ = [])) := by
  intro items
  induction items with
  | nil =>
    intro i0 posts comments _
    refine ⟨[], [], by simp [gen_items], by simp [specPostIds], ?_, ?_,
      [], by simp, by simp, ?_⟩
    · intro q hq; simp at hq
    · intro c hc; simp at hc
    · intro k hk; simp at hk
  | cons item rest ih =>
    intro i0 posts comments hh
    obtain ⟨p, hpm⟩ := Option.isSome_iff_exists.mp (hh item (by simp)).1
    have hrest : ∀ it ∈ rest, (d it.primary_persona).isSome ∧
        ∀ u ∈ it.commenting_personas, (d u).isSome :=
      fun it hit => hh it (by simp [hit])
    cases hpost : o.postLLM i0 with
    | none =>
      obtain ⟨P, C, heq, hids, hposts, hcom, blocks, hjoin, hlen, hidx⟩ :=
        ih (i0 + 1) posts comments hrest
      refine ⟨P, C, ?_, ?_, ?_, hcom, [] :: blocks, by simp [hjoin],
        by simp [hlen], ?_⟩
      · simp only [gen_items, hpm, hpost]
        exact heq
      · rw [hids]; simp [specPostIds, hpost]
      · intro q hq
        obtain ⟨k, hk, h1, h2, h3⟩ := hposts q hq
        refine ⟨k + 1, by simpa using Nat.succ_lt_succ hk, ?_, ?_, h3⟩
        · have e : i0 + (k + 1) = i0 + 1 + k := by omega
          rw [e]; exact h1
        · have e : i0 + (k + 1) = i0 + 1 + k := by omega
          rw [e]; exact h2
      · intro k hk hb
        cases k with
        | zero =>
          constructor
          · intro hcon
            rw [Nat.add_zero, hpost] at hcon
            simp at hcon
          · intro _; rfl
        | succ k2 =>
          have e : i0 + (k2 + 1) = i0 + 1 + k2 := by omega
          have hk2 : k2 < rest.length := by simpa using Nat.lt_of_succ_lt_succ hk
          have hb2 : k2 < blocks.length := by simpa using Nat.lt_of_succ_lt_succ hb
          have hthis := hidx k2 hk2 hb2
          constructor
          · intro hs
            rw [e] at hs ⊢
            exact hthis.1 hs
          · intro hn
            rw [e] at hn
            exact hthis.2 hn
    | some pres =>
      obtain ⟨new1, hg1, hprops1, husers1⟩ :=
        gen_comments_ok o d hd i0 (mkPost i0 item p pres) item.scheduled_datetime
          item.commenting_personas 0 comments (hh item (by simp)).2
      obtain ⟨P, C, heq, hids, hposts, hcom, blocks, hjoin, hlen, hidx⟩ :=
        ih (i0 + 1) (posts ++ [mkPost i0 item p pres]) (comments ++ new1) hrest
      refine ⟨mkPost i0 item p pres :: P, new1 ++ C, ?_, ?_, ?_, ?_,
        new1 :: blocks, ?_, by simp [hlen], ?_⟩
      · simp only [gen_items, hpm, hpost, hg1]
        rw [heq]
        simp
      · simp only [List.map_cons, hids]
        simp [specPostIds, hpost, mkPost]
      · intro q hq
        rcases List.mem_cons.mp hq with hq0 | hqn
        · subst hq0
          refine ⟨0, by simp, ?_, ?_, rfl⟩
          · rw [Nat.add_zero, hpost]; rfl
          · rw [Nat.add_zero]; rfl
        · obtain ⟨k, hk, h1, h2, h3⟩ := hposts q hqn
          refine ⟨k + 1, by simpa using Nat.succ_lt_succ hk, ?_, ?_, h3⟩
          · have e : i0 + (k + 1) = i0 + 1 + k := by omega
            rw [e]; exact h1
          · have e : i0 + (k + 1) = i0 + 1 + k := by omega
            rw [e]; exact h2
      · intro c hc
        rcases List.mem_append.mp hc with hc1 | hc2
        · obtain ⟨hpid, hts, res, ⟨j2, hres⟩, hdel⟩ := hprops1 c hc1
          exact ⟨mkPost i0 item p pres, by simp, hpid, hts, res, ⟨i0, j2, hres⟩, hdel⟩
        · obtain ⟨q, hqmem, h1, h2, h3⟩ := hcom c hc2
          exact ⟨q, by simp [hqmem], h1, h2, h3⟩
      · simp [hjoin]
      · intro k hk hb
        cases k with
        | zero =>
          constructor
          · intro _
            rw [Nat.add_zero]
            exact husers1
          · intro hcon
            rw [Nat.add_zero, hpost] at hcon
            simp at hcon
        | succ k2 =>
          have e : i0 + (k2 + 1) = i0 + 1 + k2 := by omega
          have hk2 : k2 < rest.length := by simpa using Nat.lt_of_succ_lt_succ hk
          have hb2 : k2 < blocks.length := by simpa using Nat.lt_of_succ_lt_succ hb
          have hthis := hidx k2 hk2 hb2
          constructor
          · intro hs
            rw [e] at hs ⊢
            exact hthis.1 hs
          · intro hn
            rw [e] at hn
            exact hthis.2 hn

/-- C3: under a plan whose persona references all resolve, the content
stage never raises; it produces exactly one post per plan item whose
post-generation call succeeds (identifiers in plan order), every comment
belongs to one of those produced posts, and per item the comments produced
are exactly those whose generation call succeeds (a failed comment is
skipped without disturbing its siblings or the post).  In particular, for a
3-item plan where only item 2's post generation fails, the result has
posts P1 and P3 only and zero comments for P2. -/
theorem C3_fault_isolation (o : Oracle) (s : RedditState) (plan : WeekPlan)
    (hplan : s.strategic_plan = some plan)
    (hres : ∀ it ∈ plan.posts,
       (personas_dict s.personas it.primary_persona).isSome ∧
       ∀ u ∈ it.commenting_personas, (personas_dict s.personas u).isSome) :
    ∃ s1 gc, content_generator_agent o s = .ok s1 ∧
      s1.generated_content = some gc ∧
      gc.posts.map (fun q => q.post_id) = specPostIds o 0 plan.posts ∧
      (∀ c ∈ gc.comments, ∃ q ∈ gc.posts, c.post_id = q.post_id) ∧
      (∃ blocks : List (List RedditComment), gc.comments = blocks.flatten ∧
         blocks.length = plan.posts.length ∧
         ∀ (k : Nat) (hk : k < plan.posts.length) (hb : k < blocks.length),
           ((o.postLLM k).isSome →
              (blocks.get ⟨k, hb⟩).map (fun c => c.username) =
                specCommentUsers o k 0
                  ((plan.posts.get ⟨k, hk⟩).commenting_personas)) ∧
           (o.postLLM k = none → blocks.get ⟨k, hb⟩ = [])) ∧
      (plan.posts.length = 3 → (o.postLLM 0).isSome → o.postLLM 1 = none →
        (o.postLLM 2).isSome →
        gc.posts.map (fun q => q.post_id) = [postId 0, postId 2] ∧
        ∀ c ∈ gc.comments, c.post_id ≠ postId 1) := by
  obtain ⟨P, C, heq, hids, hposts, hcom, blocks, hjoin, hlen, hidx⟩ :=
    gen_items_ok o (personas_dict s.personas)
      (fun u p h => personas_dict_username s.personas u p h)
      plan.posts 0 [] [] hres
  have heq2 : gen_items o (personas_dict s.personas) plan.posts 0 [] [] =
      .ok (P, C) := by simpa using heq
  refine ⟨{ s with generated_content := some ⟨P, C, zeroScore⟩ },
    ⟨P, C, zeroScore⟩, ?_, rfl, hids, ?_, ?_, ?_⟩
  · simp only [content_generator_agent, hplan, heq2]
  · intro c hc
    obtain ⟨q, hq, h1, _⟩ := hcom c hc
    exact ⟨q, hq, h1⟩
  · refine ⟨blocks, hjoin, hlen, ?_⟩
    intro k hk hb
    have hthis := hidx k hk hb
    rw [Nat.zero_add] at hthis
    exact hthis
  · intro hlen3 h0 h1 h2
    obtain ⟨a, b, c3, habc⟩ := List.length_eq_three.mp hlen3
    have hids3 : P.map (fun q => q.post_id) = [postId 0, postId 2] := by
      rw [hids, habc]
      simp [specPostIds, h0, h1, h2]
    refine ⟨hids3, ?_⟩
    intro c hc
    obtain ⟨q, hq, hpid, _⟩ := hcom c hc
    have hmem : q.post_id ∈ P.map (fun x => x.post_id) :=
      List.mem_map_of_mem _ hq
    rw [hids3] at hmem
    simp only [List.mem_cons, List.not_mem_nil, or_false] at hmem
    rw [hpid]
    rcases hmem with h | h
    · rw [h]; decide
    · rw [h]; decide

/-- C3 witness: with all personas known and post generation failing
exactly on the second of three plan items, the concrete run produces posts
P1 and P3 and not a single comment for P2. -/
theorem C3_witness :
    ∃ s1 gc, content_generator_agent oSkipSecond sDemo = .ok s1 ∧
      s1.generated_content = some gc ∧
      gc.posts.map (fun q => q.post_id) = [postId 0, postId 2] ∧
      ∀ c ∈ gc.comments, c.post_id ≠ postId 1 := by
  obtain ⟨s1, gc, h1, h2, h3, h4, h5, h6⟩ :=
    C3_fault_isolation oSkipSecond sDemo demoPlan rfl (by decide)
  obtain ⟨hids3, hnone⟩ := h6 (by decide) (by decide) (by decide) (by decide)
  exact ⟨s1, gc, h1, h2, hids3, hnone⟩

/-- C4 counterexample: in a concrete successful run the second comment of
the first post is threaded under the first comment, yet its timestamp is
computed from the *post* time rather than the parent comment's time, and
its delay is the generator's raw value 0 — so neither the parent-anchored
timestamp, nor strict positivity, nor any clamping of the delay holds. -/
theorem C4_counterexample :
    ∃ gc c1 c2 rest,
      generate_reddit_calendar oBase "ci" demoPersonas ["r/startups"]
          ["presentation tools"] 3 1 = .ok gc ∧
      gc.comments = c1 :: c2 :: rest ∧
      c2.parent_comment_id = some c1.comment_id ∧
      c2.post_id = c1.post_id ∧
      c2.delay_minutes = 0 ∧
      c1.timestamp = 1060 ∧ c2.timestamp = 1000 ∧
      c2.timestamp ≠ c1.timestamp + c2.delay_minutes := by
  refine ⟨_, _, _, _, rfl, rfl, rfl, rfl, rfl, rfl, rfl, by decide⟩

/-- C4 (amended): every generated post's timestamp equals its plan item's
scheduled date/time exactly; every generated comment's timestamp equals the
timestamp of its *post* (even for threaded comments) plus `delay_minutes`,
where `delay_minutes` is the raw value returned by the generation call
(default 30 when the field is absent) with no positivity or range
constraint enforced. -/
theorem C4_amended_timestamps (o : Oracle) (s : RedditState) (plan : WeekPlan)
    (hplan : s.strategic_plan = some plan)
    (hres : ∀ it ∈ plan.posts,
       (personas_dict s.personas it.primary_persona).isSome ∧
       ∀ u ∈ it.commenting_personas, (personas_dict s.personas u).isSome) :
    ∃ s1 gc, content_generator_agent o s = .ok s1 ∧
      s1.generated_content = some gc ∧
      (∀ q ∈ gc.posts, ∃ k, ∃ hk : k < plan.posts.length,
         q.post_id = postId k ∧
         q.timestamp = (plan.posts.get ⟨k, hk⟩).scheduled_datetime) ∧
      (∀ c ∈ gc.comments, ∃ q ∈ gc.posts, c.post_id = q.post_id ∧
         c.timestamp = q.timestamp + c.delay_minutes ∧
         ∃ res : CommentResult, (∃ i2 j2, o.commentLLM i2 j2 = some res) ∧
           c.delay_minutes = res.delay_minutes.getD 30) := by
  obtain ⟨P, C, heq, hids, hposts, hcom, blocks, hjoin, hlen, hidx⟩ :=
    gen_items_ok o (personas_dict s.personas)
      (fun u p h => personas_dict_username s.personas u p h)
      plan.posts 0 [] [] hres
  have heq2 : gen_items o (personas_dict s.personas) plan.posts 0 [] [] =
      .ok (P, C) := by simpa using heq
  refine ⟨{ s with generated_content := some ⟨P, C, zeroScore⟩ },
    ⟨P, C, zeroScore⟩, ?_, rfl, ?_, hcom⟩
  · simp only [content_generator_agent, hplan, heq2]
  · intro q hq
    obtain ⟨k, hk, _, h2, h3⟩ := hposts q hq
    rw [Nat.zero_add] at h2
    exact ⟨k, hk, h2, h3⟩

/-- C4 witness for the amended claim, at the fully successful concrete
run. -/
theorem C4_witness :
    ∃ s1 gc, content_generator_agent oBase sDemo = .ok s1 ∧
      s1.generated_content = some gc ∧
      (∀ q ∈ gc.posts, ∃ k, ∃ hk : k < demoPlan.posts.length,
         q.post_id = postId k ∧
         q.timestamp = (demoPlan.posts.get ⟨k, hk⟩).scheduled_datetime) ∧
      (∀ c ∈ gc.comments, ∃ q ∈ gc.posts, c.post_id = q.post_id ∧
         c.timestamp = q.timestamp + c.delay_minutes ∧
         ∃ res : CommentResult, (∃ i2 j2, oBase.commentLLM i2 j2 = some res) ∧
           c.delay_minutes = res.delay_minutes.getD 30) :=
  C4_amended_timestamps oBase sDemo demoPlan rfl (by decide)

theorem gen_items_unknown_primary (o : Oracle) (d : String → Option Persona) :
    ∀ (pre : List PostPlan) (bad : PostPlan) (rest : List PostPlan) (i0 : Nat)
      (posts : List RedditPost) (comments : List RedditComment),
      (∀ it ∈ pre, (d it.primary_persona).isSome) →
      d bad.primary_persona = none →
      gen_items o d (pre ++ bad :: rest) i0 posts comments = .error .keyError := by
  intro pre
  induction pre with
  | nil =>
    intro bad rest i0 posts comments _ hbad
    simp only [List.nil_append, gen_items, hbad]
  | cons item pre2 ih =>
    intro bad rest i0 posts comments hpre hbad
    obtain ⟨p, hpm⟩ := Option.isSome_iff_exists.mp (hpre item (by simp))
    have hpre2 : ∀ it ∈ pre2, (d it.primary_persona).isSome :=
      fun it hit => hpre it (by simp [hit])
    cases hpost : o.postLLM i0 with
    | none =>
      simp only [List.cons_append, gen_items, hpm, hpost]
      exact ih bad rest (i0 + 1) posts comments hpre2 hbad
    | some pres =>
      simp only [List.cons_append, gen_items, hpm, hpost]
      cases hg : gen_comments o d i0 (mkPost i0 item p pres)
          item.scheduled_datetime item.commenting_personas 0 comments with
      | ok c2 =>
        simp only [hg]
        exact ih bad rest (i0 + 1) (posts ++ [mkPost i0 item p pres]) c2 hpre2 hbad
      | error c2 =>
        simp only [hg]
        exact ih bad rest (i0 + 1) (posts ++ [mkPost i0 item p pres]) c2 hpre2 hbad

/-- C10: the content stage looks up each plan item's primary persona in the
persona dictionary before entering the per-item handler: if any item names
a primary persona outside the supplied set, the lookup's `KeyError` aborts
the *entire* stage — the remaining plan items included — not just that
item. -/
theorem C10_unknown_primary_aborts (o : Oracle) (s : RedditState)
    (plan : WeekPlan) (pre : List PostPlan) (bad : PostPlan)
    (rest : List PostPlan)
    (hplan : s.strategic_plan = some plan)
    (hsplit : plan.posts = pre ++ bad :: rest)
    (hpre : ∀ it ∈ pre, (personas_dict s.personas it.primary_persona).isSome)
    (hbad : personas_dict s.personas bad.primary_persona = none) :
    content_generator_agent o s = .error .keyError := by
  have hg := gen_items_unknown_primary o (personas_dict s.personas)
    pre bad rest 0 [] [] hpre hbad
  simp only [content_generator_agent, hplan, hsplit, hg]

/-- C10 witness: a concrete plan whose second item names the unknown
persona "ghost" aborts the whole content stage with a `KeyError`, the third
item never being processed. -/
theorem C10_witness :
    content_generator_agent oGhost
      { sDemo with strategic_plan := some ghostPlan } = .error .keyError :=
  C10_unknown_primary_aborts oGhost
    { sDemo with strategic_plan := some ghostPlan } ghostPlan
    [itemOne] itemGhost [itemThree] rfl rfl (by decide) (by decide)

/-! ## Comment-forest invariant -/

theorem forest_ok_nil : forest_ok [] := by
  intro k hk
  simp at hk

theorem forest_ok_append (C : List RedditComment) (c : RedditComment)
    (hC : forest_ok C)
    (hpar : ∀ pc, c.parent_comment_id = some pc →
       ∃ c2 ∈ C, c2.comment_id = pc ∧ c2.post_id = c.post_id) :
    forest_ok (C ++ [c]) := by
  intro k hk pc hpc
  by_cases hkc : k < C.length
  · have hget : (C ++ [c]).get ⟨k, hk⟩ = C.get ⟨k, hkc⟩ := by
      simp only [List.get_eq_getElem]
      exact List.getElem_append_left hkc
    rw [hget] at hpc ⊢
    obtain ⟨c2, hc2mem, h1, h2⟩ := hC k hkc pc hpc
    refine ⟨c2, ?_, h1, h2⟩
    rw [List.take_append_of_le_length (le_of_lt hkc)]
    exact hc2mem
  · have hke : k = C.length := by
      have := hk
      simp only [List.length_append, List.length_singleton] at this
      omega
    subst hke
    have hget : (C ++ [c]).get ⟨C.length, hk⟩ = c := by
      simp only [List.get_eq_getElem]
      exact List.getElem_concat_length C c C.length rfl hk
    rw [hget] at hpc ⊢
    obtain ⟨c2, hc2, h1, h2⟩ := hpar pc hpc
    refine ⟨c2, ?_, h1, h2⟩
    rw [List.take_append_of_le_length (le_refl C.length), List.take_length C]
    exact hc2

theorem gen_comments_forest (o : Oracle) (d : String → Option Persona) (i : Nat)
    (post : RedditPost) (pt : Int) :
    ∀ (cps : List String) (j : Nat) (comments : List RedditComment),
      forest_ok comments →
      ∀ C2, (gen_comments o d i post pt cps j comments = .ok C2 ∨
             gen_comments o d i post pt cps j comments = .error C2) →
        forest_ok C2 := by
  intro cps
  induction cps with
  | nil =>
    intro j comments hf C2 h
    rcases h with h | h
    · simp only [gen_comments, Except.ok.injEq] at h
      exact h ▸ hf
    · simp only [gen_comments] at h
      exact absurd h (by simp)
  | cons u rest ih =>
    intro j comments hf C2 h
    cases hdu : d u with
    | none =>
      rcases h with h | h
      · simp only [gen_comments, hdu] at h
        exact absurd h (by simp)
      · simp only [gen_comments, hdu, Except.error.injEq] at h
        exact h ▸ hf
    | some commenter =>
      cases hcl : o.commentLLM i j with
      | none =>
        refine ih (j + 1) comments hf C2 ?_
        rcases h with h | h
        · left
          rw [← h]
          simp only [gen_comments, hdu, hcl]
        · right
          rw [← h]
          simp only [gen_comments, hdu, hcl]
      | some res =>
        have hf2 : forest_ok
            (comments ++ [mkComment o i j post pt commenter res comments]) := by
          apply forest_ok_append comments _ hf
          intro pc hpc
          simp only [mkComment] at hpc
          obtain ⟨cpar, hpar, hid⟩ := Option.map_eq_some'.mp hpc
          obtain ⟨hmem, hpid⟩ := threadParent_mem o i j post comments cpar hpar
          refine ⟨cpar, hmem, hid, ?_⟩
          rw [hpid]
          rfl
        refine ih (j + 1)
          (comments ++ [mkComment o i j post pt commenter res comments]) hf2 C2 ?_
        rcases h with h | h
        · left
          rw [← h]
          simp only [gen_comments, hdu, hcl]
        · right
          rw [← h]
          simp only [gen_comments, hdu, hcl]

theorem gen_items_forest (o : Oracle) (d : String → Option Persona) :
    ∀ (items : List PostPlan) (i0 : Nat) (posts : List RedditPost)
      (comments : List RedditComment) (P : List RedditPost)
      (C : List RedditComment),
      forest_ok comments →
      gen_items o d items i0 posts comments = .ok (P, C) →
      forest_ok C := by
  intro items
  induction items with
  | nil =>
    intro i0 posts comments P C hf h
    simp only [gen_items, Except.ok.injEq, Prod.mk.injEq] at h
    exact h.2 ▸ hf
  | cons item rest ih =>
    intro i0 posts comments P C hf h
    cases hpm : d item.primary_persona with
    | none =>
      simp only [gen_items, hpm] at h
      exact absurd h (by simp)
    | some p =>
      cases hpost : o.postLLM i0 with
      | none =>
        simp only [gen_items, hpm, hpost] at h
        exact ih (i0 + 1) posts comments P C hf h
      | some pres =>
        simp only [gen_items, hpm, hpost] at h
        cases hg : gen_comments o d i0 (mkPost i0 item p pres)
            item.scheduled_datetime item.commenting_personas 0 comments with
        | ok c2 =>
          simp only [hg] at h
          exact ih (i0 + 1) (posts ++ [mkPost i0 item p pres]) c2 P C
            (gen_comments_forest o d i0 (mkPost i0 item p pres)
              item.scheduled_datetime item.commenting_personas 0 comments hf c2
              (Or.inl hg)) h
        | error c2 =>
          simp only [hg] at h
          exact ih (i0 + 1) (posts ++ [mkPost i0 item p pres]) c2 P C
            (gen_comments_forest o d i0 (mkPost i0 item p pres)
              item.scheduled_datetime item.commenting_personas 0 comments hf c2
              (Or.inr hg)) h

/-- C7: for every comment produced by the content stage whose
`parent_comment_id` is set, the referenced parent is a comment with the
same `post_id` created strictly earlier in the run (the comments of each
post form a forest). -/
theorem C7_comment_forest (o : Oracle) (s s1 : RedditState)
    (gc : GeneratedContent)
    (h : content_generator_agent o s = .ok s1)
    (hgc : s1.generated_content = some gc) :
    forest_ok gc.comments := by
  unfold content_generator_agent at h
  split at h
  · simp at h
  next plan hplan =>
    split at h
    · simp at h
    next P C hgi =>
      simp only [Except.ok.injEq] at h
      subst h
      simp only [Option.some.injEq] at hgc
      have hforest := gen_items_forest o (personas_dict s.personas)
        plan.posts 0 [] [] P C forest_ok_nil hgi
      rw [← hgc]
      exact hforest

/-- C7 witness: the invariant holds of the concrete fully successful run
(whose second comment is indeed threaded). -/
theorem C7_witness :
    ∃ s1 gc, content_generator_agent oBase sDemo = .ok s1 ∧
      s1.generated_content = some gc ∧ forest_ok gc.comments := by
  obtain ⟨s1, gc, h1, h2⟩ : ∃ s1 gc, content_generator_agent oBase sDemo = .ok s1 ∧
      s1.generated_content = some gc := ⟨_, _, rfl, rfl⟩
  exact ⟨s1, gc, h1, h2, C7_comment_forest oBase sDemo s1 gc h1 h2⟩
